import Mathlib

/-!
Verification development for the crypto potential-list tracker
(`src/components/CryptoTracker.tsx`, component `PotentialList`).

The numeric domain of the program is JavaScript's `number` type.  The
program never depends on floating-point rounding, so a `number` is
embedded as `JSVal`: an exact real, one of the two infinities, or `NaN`.
All arithmetic, comparison, `Math.min`/`Math.max`/`Math.log`/`Math.round`
operations used by the component are embedded with their JavaScript
semantics on this carrier.

The snapshot fields of the API records arrive as decimal strings and are
always used through `parseFloat`; a field of `CryptoData` below holds the
`parseFloat` image of the corresponding string (`num x` for a numeric
string, `nan` when parsing fails, `posInf`/`negInf` for strings such as
"Infinity" or "1e999").
-/

/-- Embedding of a JavaScript `number`: an exact real value, one of the two
infinities, or `NaN`.  (`-0` is identified with `0`; the component never
distinguishes them.) -/
inductive JSVal : Type where
  | num (x : ℝ)
  | posInf
  | negInf
  | nan

namespace JSVal

/-- JavaScript `isNaN` on a parsed number. -/
def isNaN : JSVal → Bool
  | nan => true
  | _ => false

/-- A value is finite when it is an actual real number (not `NaN`, not an
infinity).  This is the notion the specification calls "parses to a finite
number". -/
def isFinite : JSVal → Bool
  | num _ => true
  | _ => false

/-- JavaScript `<=`: any comparison with `NaN` is false; otherwise the
extended-real order. -/
noncomputable def leB : JSVal → JSVal → Bool
  | nan, _ => false
  | _, nan => false
  | num a, num b => decide (a ≤ b)
  | num _, posInf => true
  | num _, negInf => false
  | posInf, posInf => true
  | posInf, _ => false
  | negInf, _ => true

/-- JavaScript `<`: any comparison with `NaN` is false; otherwise the
strict extended-real order. -/
noncomputable def ltB : JSVal → JSVal → Bool
  | nan, _ => false
  | _, nan => false
  | num a, num b => decide (a < b)
  | num _, posInf => true
  | num _, negInf => false
  | posInf, _ => false
  | negInf, negInf => false
  | negInf, _ => true

/-- JavaScript `>=`. -/
noncomputable def geB (a b : JSVal) : Bool := leB b a

/-- JavaScript `>`. -/
noncomputable def gtB (a b : JSVal) : Bool := ltB b a

/-- JavaScript addition. -/
def add : JSVal → JSVal → JSVal
  | nan, _ => nan
  | _, nan => nan
  | num a, num b => num (a + b)
  | num _, posInf => posInf
  | posInf, num _ => posInf
  | num _, negInf => negInf
  | negInf, num _ => negInf
  | posInf, posInf => posInf
  | negInf, negInf => negInf
  | posInf, negInf => nan
  | negInf, posInf => nan

/-- JavaScript subtraction. -/
def sub : JSVal → JSVal → JSVal
  | nan, _ => nan
  | _, nan => nan
  | num a, num b => num (a - b)
  | num _, posInf => negInf
  | num _, negInf => posInf
  | posInf, num _ => posInf
  | negInf, num _ => negInf
  | posInf, negInf => posInf
  | negInf, posInf => negInf
  | posInf, posInf => nan
  | negInf, negInf => nan

/-- JavaScript multiplication. -/
noncomputable def mul : JSVal → JSVal → JSVal
  | nan, _ => nan
  | _, nan => nan
  | num a, num b => num (a * b)
  | num a, posInf => if 0 < a then posInf else if a < 0 then negInf else nan
  | posInf, num b => if 0 < b then posInf else if b < 0 then negInf else nan
  | num a, negInf => if 0 < a then negInf else if a < 0 then posInf else nan
  | negInf, num b => if 0 < b then negInf else if b < 0 then posInf else nan
  | posInf, posInf => posInf
  | posInf, negInf => negInf
  | negInf, posInf => negInf
  | negInf, negInf => posInf

/-- JavaScript division (with `-0` identified with `0`, so `x / 0` follows
the sign of `x` alone). -/
noncomputable def div : JSVal → JSVal → JSVal
  | nan, _ => nan
  | _, nan => nan
  | num a, num b =>
      if b = 0 then (if 0 < a then posInf else if a < 0 then negInf else nan)
      else num (a / b)
  | num _, posInf => num 0
  | num _, negInf => num 0
  | posInf, num b => if 0 ≤ b then posInf else negInf
  | negInf, num b => if 0 ≤ b then negInf else posInf
  | posInf, posInf => nan
  | posInf, negInf => nan
  | negInf, posInf => nan
  | negInf, negInf => nan

/-- JavaScript `Math.min` restricted to two arguments. -/
noncomputable def minJ (a b : JSVal) : JSVal :=
  if a.isNaN || b.isNaN then nan else if leB a b then a else b

/-- JavaScript `Math.max` restricted to two arguments. -/
noncomputable def maxJ (a b : JSVal) : JSVal :=
  if a.isNaN || b.isNaN then nan else if leB a b then b else a

/-- JavaScript `Math.log`. -/
noncomputable def log : JSVal → JSVal
  | nan => nan
  | posInf => posInf
  | negInf => nan
  | num x => if 0 < x then num (Real.log x) else if x = 0 then negInf else nan

/-- JavaScript `Math.round`: round half towards positive infinity. -/
noncomputable def round : JSVal → JSVal
  | nan => nan
  | posInf => posInf
  | negInf => negInf
  | num x => num (⌊x + 1 / 2⌋ : ℤ)

/-- JavaScript `v || 0` applied to a number: `NaN` (and `0` itself) is
falsy and yields `0`; every other number is truthy and is returned
unchanged. -/
def orZero : JSVal → JSVal
  | nan => num 0
  | v => v

end JSVal

/-- Classical decidable equality on embedded JavaScript numbers (used only
in specification statements, never executed). -/
noncomputable instance : DecidableEq JSVal := Classical.decEq JSVal

open JSVal

open scoped List

/-- One market snapshot record of the `PotentialList` component
(`interface CryptoData`).  Each numeric field holds the `parseFloat` image
of the decimal string delivered by the API (see the file header). -/
structure CryptoData where
  id : String
  priceUsd : JSVal
  changePercent24Hr : JSVal
  marketCapUsd : JSVal
  volumeUsd24Hr : JSVal
  supply : JSVal
  maxSupply : JSVal

/-- Filter thresholds (`interface FilterParams`).  The thresholds are
ordinary finite JavaScript numbers and `maxResults` is a count, exactly as
in the component's fixed configuration. -/
structure FilterParams where
  minVolume : ℝ
  minMarketCap : ℝ
  maxMarketCap : ℝ
  maxResults : ℕ

/-- The fixed configuration installed by `useState<FilterParams>`. -/
def defaultFilterParams : FilterParams :=
  { minVolume := 1000000
    minMarketCap := 1000000
    maxMarketCap := 5000000000
    maxResults := 100 }

/-- Capitalization sub-score (`marketCapScore`, 0 initialised, assigned
inside the band check `marketCap >= 1000000 && marketCap <= 5000000000`). -/
noncomputable def marketCapScore (marketCap : JSVal) : JSVal :=
  if geB marketCap (num 1000000) && leB marketCap (num 5000000000) then
    mul (num 30)
      (sub (num 1)
        (div (sub (log marketCap) (log (num 1000000)))
          (sub (log (num 5000000000)) (log (num 1000000)))))
  else num 0

/-- Volume sub-score (`volumeScore`, assigned when `volume > 0` from
`volumeRatio = volume / marketCap`). -/
noncomputable def volumeScore (volume marketCap : JSVal) : JSVal :=
  if gtB volume (num 0) then
    minJ (num 25) (mul (div volume marketCap) (num 100))
  else num 0

/-- Supply sub-score (`supplyScore`, assigned when
`!isNaN(supply) && !isNaN(maxSupply) && maxSupply > 0`). -/
noncomputable def supplyScore (supply maxSupply : JSVal) : JSVal :=
  if !supply.isNaN && !maxSupply.isNaN && gtB maxSupply (num 0) then
    mul (num 20) (sub (num 1) (div supply maxSupply))
  else num 0

/-- Trend sub-score (`trendScore`, assigned when `!isNaN(changePercent)`). -/
noncomputable def trendScore (changePercent : JSVal) : JSVal :=
  if !changePercent.isNaN then
    minJ (num 25) (maxJ (num 0) changePercent)
  else num 0

/-- The score engine `calculatePotentialScore`.  The surrounding
`try`/`catch` in the source can never fire: `parseFloat` and JavaScript
arithmetic do not throw, so the function is total and this embedding needs
no error case. -/
noncomputable def calculatePotentialScore (coin : CryptoData) : JSVal :=
  JSVal.round
    (add
      (add
        (add (marketCapScore coin.marketCapUsd)
          (volumeScore coin.volumeUsd24Hr coin.marketCapUsd))
        (supplyScore coin.supply coin.maxSupply))
      (trendScore coin.changePercent24Hr))

/-- A scored record: the spread `{...coin, potentialScore: ...}` produced
by the pipeline's `map` step. -/
structure RankedCoin extends CryptoData where
  potentialScore : JSVal

/-- The per-record validity test of the pipeline's `filter` step.  The
leading `coin &&` truthiness test of the source is always true for an
actual record, and the per-record `try`/`catch` cannot fire (`parseFloat`
does not throw), so neither needs a case here. -/
noncomputable def isValidCoin (p : FilterParams) (c : CryptoData) : Bool :=
  !c.volumeUsd24Hr.isNaN &&
  geB c.volumeUsd24Hr (num p.minVolume) &&
  !c.marketCapUsd.isNaN &&
  geB c.marketCapUsd (num p.minMarketCap) &&
  leB c.marketCapUsd (num p.maxMarketCap) &&
  !c.changePercent24Hr.isNaN

/-- The surviving records of the `filter` step, in input order. -/
noncomputable def filterStep (p : FilterParams) (l : List CryptoData) : List CryptoData :=
  l.filter (isValidCoin p)

/-- The `map` step: attach `potentialScore` to every surviving record. -/
noncomputable def scoredList (p : FilterParams) (l : List CryptoData) : List RankedCoin :=
  (filterStep p l).map (fun c => { c with potentialScore := calculatePotentialScore c })

/-- Sort key of a scored record: `potentialScore || 0` as it appears in
the comparator (`NaN` is falsy and is replaced by `0`). -/
def sortKey (r : RankedCoin) : JSVal := orZero r.potentialScore

/-- The comparator passed to `Array.prototype.sort`:
`(b.potentialScore || 0) - (a.potentialScore || 0)`. -/
def sortComparator (a b : RankedCoin) : JSVal :=
  sub (orZero b.potentialScore) (orZero a.potentialScore)

/-- Element order induced by the comparator under the ECMAScript sort
contract: `a` may precede `b` unless the comparator value is positive
(a `NaN` comparator value is coerced to `+0`).  `Array.prototype.sort` is
required to be stable, so the sort step is embedded as a stable merge sort
under this relation. -/
noncomputable def sortLE (a b : RankedCoin) : Bool :=
  !gtB (sortComparator a b) (num 0)

/-- The full pipeline body of `filterData` on an array input: filter,
score, stable sort descending, truncate to `maxResults`. -/
noncomputable def filterDataList (p : FilterParams) (l : List CryptoData) : List RankedCoin :=
  ((scoredList p l).mergeSort sortLE).take p.maxResults

/-- Payload of the snapshot endpoint response (`response.data.data`).
`none` embeds a malformed payload that is not an array, on which the very
first array-method call inside the outer `try` of `filterData` throws a
`TypeError`. -/
abbrev SnapResponse : Type := Option (List CryptoData)

/-- The pipeline with its exception behaviour made explicit: a malformed
input makes the steps inside the outer `try` throw. -/
noncomputable def filterDataE (p : FilterParams) : SnapResponse → Except String (List RankedCoin)
  | none => Except.error ("TypeError")
  | some l => Except.ok (filterDataList p l)

/-- Return value of `filterData`: the outer `catch` converts any escaped
exception into the empty list. -/
noncomputable def filterDataResultFn (p : FilterParams) (resp : SnapResponse) : List RankedCoin :=
  match filterDataE p resp with
  | Except.ok r => r
  | Except.error _ => []

/-- The "no matching data" message set by `filterData`
(`'沒有找到符合條件的數據'`). -/
def noMatchMsg : String := "沒有找到符合條件的數據"

/-- The message set when the snapshot fetch itself fails
(`'獲取數據失敗，請稍後重試'`). -/
def fetchFailMsg : String := "獲取數據失敗，請稍後重試"

/-- Effect of `filterData` on the `error` state: on the normal path an
empty result installs the "no matches" message and a non-empty result
clears the error; on the exception path `filterData` performs no
`setError` call at all, so the previous value persists. -/
noncomputable def filterDataErrorEffect (p : FilterParams) (resp : SnapResponse)
    (prevError : Option String) : Option String :=
  match filterDataE p resp with
  | Except.ok r => if r.length = 0 then some noMatchMsg else none
  | Except.error _ => prevError

/-- Outcome of one snapshot fetch: the axios promise either fulfils with a
payload or rejects. -/
inductive SnapOutcome where
  | success (resp : SnapResponse)
  | failure

/-- Observable state owned by the snapshot track of `PotentialList`:
the `data`, `error` and `loading` `useState` cells, plus the number of
`fetchData` calls whose `await axios.get` has not yet settled. -/
structure SnapState where
  data : List RankedCoin
  error : Option String
  loading : Bool
  inflight : ℕ

/-- Events of the snapshot track.  `timerTick` is the `setInterval`
callback (it invokes `fetchData` unconditionally); `refreshClick` is the
refresh `IconButton`, which is rendered with `disabled={loading}` and so
does nothing while a fetch is in flight; `complete o` is the settling of
one in-flight `fetchData` call with outcome `o`. -/
inductive SnapEvent where
  | timerTick
  | refreshClick
  | complete (o : SnapOutcome)

/-- One transition of the snapshot track.  A settling `fetchData` call
runs its continuation: on success `filterData` is applied (including its
internal `setError`), then `setData`, then `setError(null)` — so the final
`error` on the success path is always `null`; on failure the failure
message is set and `data` is left unchanged; `finally` clears `loading`
either way. -/
noncomputable def snapStep (p : FilterParams) (s : SnapState) : SnapEvent → SnapState
  | SnapEvent.timerTick =>
      { s with loading := true, inflight := s.inflight + 1 }
  | SnapEvent.refreshClick =>
      if s.loading then s
      else { s with loading := true, inflight := s.inflight + 1 }
  | SnapEvent.complete o =>
      if s.inflight = 0 then s
      else
        match o with
        | SnapOutcome.success resp =>
            { data := filterDataResultFn p resp
              error := none
              loading := false
              inflight := s.inflight - 1 }
        | SnapOutcome.failure =>
            { s with
              error := some fetchFailMsg
              loading := false
              inflight := s.inflight - 1 }

/-- Run of the snapshot track over a sequence of interleaved events. -/
noncomputable def snapRun (p : FilterParams) (s : SnapState) (es : List SnapEvent) : SnapState :=
  es.foldl (snapStep p) s

/-- State of the component at mount: empty list, no error, `loading`
initialised to `true`, nothing in flight yet. -/
def initSnapState : SnapState :=
  { data := [], error := none, loading := true, inflight := 0 }

/-- The fixed range catalog `TIME_RANGES`. -/
inductive TimeRange where
  | h24
  | d7
  | d30
  | all
deriving DecidableEq

/-- Sampling interval token of a range (`interval` field of
`TIME_RANGES`). -/
def rangeInterval : TimeRange → String
  | TimeRange.h24 => "m5"
  | TimeRange.d7 => "h1"
  | TimeRange.d30 => "h2"
  | TimeRange.all => "d1"

/-- Lookback window in days of a range (`days` field of `TIME_RANGES`). -/
def rangeDays : TimeRange → ℕ
  | TimeRange.h24 => 1
  | TimeRange.d7 => 7
  | TimeRange.d30 => 30
  | TimeRange.all => 2000

/-- One raw history point (`interface HistoricalData`): the `parseFloat`
image of `priceUsd`, the epoch-millisecond timestamp `time`, and the
unused `date` marker. -/
structure HistoricalPoint where
  priceUsd : JSVal
  time : ℤ
  date : String

/-- Chart label produced by
`new Date(item.time).toLocaleDateString('zh-CN', {month:'short',
day:'numeric', hour: range === '24H' ? 'numeric' : undefined})`.
The formatter is external and deterministic, so a label is embedded by the
information it is given: the timestamp and whether the hour-of-day option
was passed. -/
structure ChartLabel where
  time : ℤ
  withHour : Bool
deriving DecidableEq

/-- Chart-ready payload: the `labels` array and the dataset's `data`
array of the object built by the `chartData` `useMemo`. -/
structure ChartPayload where
  labels : List ChartLabel
  values : List JSVal

/-- The `chartData` `useMemo` body: `null` when `historicalData` is empty
(`if (!historicalData.length) return null`), otherwise one label and one
parsed price per history point, in input order. -/
def chartDataFn (range : TimeRange) (hd : List HistoricalPoint) : Option ChartPayload :=
  if hd.length = 0 then none
  else
    some
      { labels := hd.map (fun item => { time := item.time, withHour := range = TimeRange.h24 })
        values := hd.map (fun item => item.priceUsd) }

/-- Identifying key of a history request: the asset id and range it was
issued for. -/
structure HistKey where
  assetId : String
  range : TimeRange
deriving DecidableEq

/-- An in-flight history request: its key together with the point list the
endpoint will eventually deliver for it (fixed at issue time, delivered at
completion time). -/
structure HistRequest where
  key : HistKey
  points : List HistoricalPoint

/-- Observable state of the history track: the `selectedCrypto` id (the
dialog's asset, `null` when closed), `selectedTimeRange`, the
`historicalData` and `loadingHistory` cells, and the queue of in-flight
history requests in issue order. -/
structure HistState where
  selectedId : Option String
  selectedRange : TimeRange
  historicalData : List HistoricalPoint
  loadingHistory : Bool
  inflight : List HistRequest

/-- Events of the history track.  `clickCrypto id pts` is
`handleCryptoClick`: select the asset, then `fetchHistoricalData(id,
selectedTimeRange)` — a request whose eventual payload is `pts`.
`changeRange r pts` is `handleTimeRangeChange`: set the range and, only if
an asset is selected, fetch its history for the new range.
`completeAt i pts?` is the settling of the `i`-th pending request — with
its recorded payload on fulfilment, or as a rejection (`catch` path, which
only logs).  Either way `finally` clears `loadingHistory`. -/
inductive HistEvent where
  | clickCrypto (id : String) (pts : List HistoricalPoint)
  | changeRange (r : TimeRange) (pts : List HistoricalPoint)
  | completeAt (i : ℕ) (ok : Bool)

/-- One transition of the history track.  A fulfilled request commits its
payload with `setHistoricalData(response.data.data)` unconditionally: the
source compares nothing against the current selection before committing. -/
def histStep (s : HistState) : HistEvent → HistState
  | HistEvent.clickCrypto id pts =>
      { s with
        selectedId := some id
        loadingHistory := true
        inflight := s.inflight ++ [{ key := { assetId := id, range := s.selectedRange }, points := pts }] }
  | HistEvent.changeRange r pts =>
      match s.selectedId with
      | some id =>
          { s with
            selectedRange := r
            loadingHistory := true
            inflight := s.inflight ++ [{ key := { assetId := id, range := r }, points := pts }] }
      | none => { s with selectedRange := r }
  | HistEvent.completeAt i ok =>
      if h : i < s.inflight.length then
        if ok then
          { s with
            historicalData := (s.inflight.get ⟨i, h⟩).points
            loadingHistory := false
            inflight := s.inflight.eraseIdx i }
        else
          { s with
            loadingHistory := false
            inflight := s.inflight.eraseIdx i }
      else s

/-- Run of the history track over a sequence of interleaved events. -/
def histRun (s : HistState) (es : List HistEvent) : HistState :=
  es.foldl histStep s

/-- History-track state at mount: nothing selected, default range `'7D'`,
no points fetched yet. -/
def initHistState : HistState :=
  { selectedId := none
    selectedRange := TimeRange.d7
    historicalData := []
    loadingHistory := false
    inflight := [] }

theorem JSVal.orZero_isNaN (v : JSVal) : (orZero v).isNaN = false := by
  cases v <;> simp [orZero, isNaN]

theorem JSVal.leB_refl {v : JSVal} (h : v.isNaN = false) : leB v v = true := by
  cases v <;> simp_all [leB, isNaN]

theorem JSVal.add_num_zero (v : JSVal) : add v (num 0) = v := by
  cases v <;> simp [add]

theorem JSVal.leB_total {p q : JSVal} (hp : p.isNaN = false) (hq : q.isNaN = false) :
    (leB p q || leB q p) = true := by
  cases p <;> cases q <;> simp_all [leB, isNaN] <;> exact le_total _ _

theorem JSVal.leB_trans {p q r : JSVal} (h1 : leB p q = true) (h2 : leB q r = true) :
    leB p r = true := by
  cases p <;> cases q <;> cases r <;> simp_all [leB] <;> exact le_trans h1 h2

theorem JSVal.ltB_eq_false_of_geB {a b : JSVal} (h : geB a b = true) :
    ltB a b = false := by
  cases a <;> cases b <;> simp_all [geB, leB, ltB] <;> exact not_lt.mpr h

theorem sortKey_isNaN (r : RankedCoin) : (sortKey r).isNaN = false :=
  JSVal.orZero_isNaN r.potentialScore

theorem sortLE_eq (a b : RankedCoin) : sortLE a b = leB (sortKey b) (sortKey a) := by
  unfold sortLE sortComparator sortKey
  cases a.potentialScore <;> cases b.potentialScore <;>
    simp [orZero, sub, gtB, ltB, leB, ← decide_not, decide_eq_decide] <;>
    constructor <;> intro h <;> linarith

theorem sortLE_trans (a b c : RankedCoin) (h1 : sortLE a b) (h2 : sortLE b c) :
    sortLE a c := by
  rw [sortLE_eq] at h1 h2 ⊢
  exact JSVal.leB_trans h2 h1

theorem sortLE_total (a b : RankedCoin) : (sortLE a b || sortLE b a) = true := by
  rw [sortLE_eq, sortLE_eq]
  exact JSVal.leB_total (sortKey_isNaN b) (sortKey_isNaN a)

theorem log5000_pos : (0:ℝ) < Real.log 5000 := Real.log_pos (by norm_num)

theorem logRatio_le : Real.log 2000 / Real.log 5000 ≤ 11 / 12 := by
  rw [div_le_iff₀ log5000_pos]
  have key : Real.log ((2000:ℝ) ^ (12:ℕ)) ≤ Real.log ((5000:ℝ) ^ (11:ℕ)) := by
    rw [Real.log_le_log_iff (by positivity) (by positivity)]
    norm_num
  rw [Real.log_pow, Real.log_pow] at key
  push_cast at key
  linarith

theorem logRatio_gt : 53 / 60 < Real.log 2000 / Real.log 5000 := by
  rw [lt_div_iff₀ log5000_pos]
  have key : Real.log ((5000:ℝ) ^ (53:ℕ)) < Real.log ((2000:ℝ) ^ (60:ℕ)) := by
    rw [Real.log_lt_log_iff (by positivity) (by positivity)]
    norm_num
  rw [Real.log_pow, Real.log_pow] at key
  push_cast at key
  linarith

theorem logDiff_num : Real.log 2000000000 - Real.log 1000000 = Real.log 2000 := by
  have h : (2000000000 : ℝ) = 2000 * 1000000 := by norm_num
  rw [h, Real.log_mul (by norm_num) (by norm_num)]
  ring

theorem logDiff_den : Real.log 5000000000 - Real.log 1000000 = Real.log 5000 := by
  have h : (5000000000 : ℝ) = 5000 * 1000000 := by norm_num
  rw [h, Real.log_mul (by norm_num) (by norm_num)]
  ring

/-- Value of the capitalization sub-score at market cap `2e9`. -/
theorem marketCapScore_2e9 :
    marketCapScore (num 2000000000) =
      num (30 * (1 - Real.log 2000 / Real.log 5000)) := by
  have hne : Real.log 5000000000 - Real.log 1000000 ≠ 0 := by
    rw [logDiff_den]; exact ne_of_gt log5000_pos
  simp only [marketCapScore, geB, leB, log, div, mul, sub]
  norm_num
  rw [if_neg (by rw [logDiff_den]; exact ne_of_gt log5000_pos)]
  rw [logDiff_num, logDiff_den]

/-- Bounds on the capitalization sub-score at market cap `2e9`: it is
about `3.23`, in particular inside `[2.5, 3.5)`. -/
theorem capScore_2e9_bounds :
    5 / 2 ≤ 30 * (1 - Real.log 2000 / Real.log 5000) ∧
      30 * (1 - Real.log 2000 / Real.log 5000) < 7 / 2 := by
  constructor
  · have := logRatio_le; linarith
  · have := logRatio_gt; linarith

/-- The capitalization sub-score is always a real number in `[0, 30]`,
for every input value including `NaN` and the infinities. -/
theorem marketCapScore_range (mc : JSVal) :
    ∃ r : ℝ, marketCapScore mc = num r ∧ 0 ≤ r ∧ r ≤ 30 := by
  unfold marketCapScore
  cases mc with
  | nan => exact ⟨0, by simp [geB, leB], by norm_num, by norm_num⟩
  | posInf => exact ⟨0, by simp [geB, leB], by norm_num, by norm_num⟩
  | negInf => exact ⟨0, by simp [geB, leB], by norm_num, by norm_num⟩
  | num m =>
    by_cases hlo : (1000000:ℝ) ≤ m
    · by_cases hhi : m ≤ (5000000000:ℝ)
      · have hmpos : (0:ℝ) < m := by linarith
        have hcond : (geB (num m) (num 1000000) && leB (num m) (num 5000000000)) = true := by
          simp [geB, leB, hlo, hhi]
        rw [if_pos hcond]
        have hden : Real.log 5000000000 - Real.log 1000000 = Real.log 5000 := logDiff_den
        have hdpos : (0:ℝ) < Real.log 5000 := log5000_pos
        have hnum0 : (0:ℝ) ≤ Real.log m - Real.log 1000000 := by
          have : Real.log 1000000 ≤ Real.log m := by
            rw [Real.log_le_log_iff (by norm_num) hmpos]; exact hlo
          linarith
        have hnum1 : Real.log m - Real.log 1000000 ≤ Real.log 5000 := by
          have : Real.log m ≤ Real.log 5000000000 := by
            rw [Real.log_le_log_iff hmpos (by norm_num)]; exact hhi
          have := logDiff_den
          linarith
        refine ⟨30 * (1 - (Real.log m - Real.log 1000000) / Real.log 5000), ?_, ?_, ?_⟩
        · simp only [log, if_pos hmpos, if_pos (by norm_num : (0:ℝ) < 1000000),
            if_pos (by norm_num : (0:ℝ) < 5000000000), sub, div, mul]
          rw [hden]
          rw [if_neg (ne_of_gt hdpos)]
        · have hq : (Real.log m - Real.log 1000000) / Real.log 5000 ≤ 1 := by
            rw [div_le_one hdpos]; exact hnum1
          linarith
        · have hq : 0 ≤ (Real.log m - Real.log 1000000) / Real.log 5000 :=
            div_nonneg hnum0 (le_of_lt hdpos)
          linarith
      · refine ⟨0, ?_, by norm_num, by norm_num⟩
        rw [if_neg ?_]
        simp [geB, leB, hhi]
    · refine ⟨0, ?_, by norm_num, by norm_num⟩
      rw [if_neg ?_]
      simp [geB, leB, hlo]

/-- The trend sub-score is always a real number in `[0, 25]`. -/
theorem trendScore_range (chg : JSVal) :
    ∃ r : ℝ, trendScore chg = num r ∧ 0 ≤ r ∧ r ≤ 25 := by
  unfold trendScore
  cases chg with
  | nan => exact ⟨0, by simp [isNaN], by norm_num, by norm_num⟩
  | posInf =>
    refine ⟨25, ?_, by norm_num, by norm_num⟩
    simp [isNaN, maxJ, minJ, leB]
  | negInf =>
    refine ⟨0, ?_, by norm_num, by norm_num⟩
    simp [isNaN, maxJ, minJ, leB]
  | num x =>
    by_cases hx : (0:ℝ) ≤ x
    · by_cases h25 : x ≤ (25:ℝ)
      · refine ⟨x, ?_, hx, h25⟩
        simp [isNaN, maxJ, minJ, leB, hx, h25]
        intro h
        linarith
      · refine ⟨25, ?_, by norm_num, by norm_num⟩
        simp [isNaN, maxJ, minJ, leB, hx]
        intro h
        linarith
    · refine ⟨0, ?_, by norm_num, by norm_num⟩
      simp [isNaN, maxJ, minJ, leB, hx]

/-- The volume sub-score is a real number in `[0, 25]` provided that a
positive volume comes with a finite nonnegative market cap. -/
theorem volumeScore_range (vol mc : JSVal)
    (hvol : gtB vol (num 0) = true → ∃ m : ℝ, mc = num m ∧ 0 ≤ m) :
    ∃ r : ℝ, volumeScore vol mc = num r ∧ 0 ≤ r ∧ r ≤ 25 := by
  unfold volumeScore
  by_cases hpos : gtB vol (num 0) = true
  · obtain ⟨m, hm, hm0⟩ := hvol hpos
    subst hm
    rw [if_pos hpos]
    cases vol with
    | nan => simp [gtB, ltB] at hpos
    | negInf => simp [gtB, ltB] at hpos
    | posInf =>
      refine ⟨25, ?_, by norm_num, by norm_num⟩
      simp only [div, if_pos hm0, mul, minJ, isNaN, leB]
      norm_num
    | num v =>
      have hv : (0:ℝ) < v := by simpa [gtB, ltB] using hpos
      by_cases hm' : m = 0
      · subst hm'
        refine ⟨25, ?_, by norm_num, by norm_num⟩
        simp only [div, if_pos rfl, if_pos hv, mul, minJ, isNaN, leB]
        norm_num
      · have hmpos : (0:ℝ) < m := lt_of_le_of_ne hm0 (Ne.symm hm')
        have hratio : (0:ℝ) ≤ v / m * 100 := by positivity
        by_cases h25 : (25:ℝ) ≤ v / m * 100
        · refine ⟨25, ?_, by norm_num, by norm_num⟩
          simp only [div, if_neg hm', mul, minJ, isNaN, leB]
          simp [h25]
        · refine ⟨v / m * 100, ?_, hratio, by linarith⟩
          simp only [div, if_neg hm', mul, minJ, isNaN, leB]
          simp [h25]
  · rw [if_neg hpos]
    exact ⟨0, rfl, by norm_num, by norm_num⟩

/-- The supply sub-score is a real number in `[0, 20]` provided that when
its guard passes, the supply is a finite number between `0` and
`maxSupply`. -/
theorem supplyScore_range (sup maxS : JSVal)
    (hsup : (!sup.isNaN && !maxS.isNaN && gtB maxS (num 0)) = true →
      ∃ s : ℝ, sup = num s ∧ 0 ≤ s ∧
        (maxS = posInf ∨ ∃ m : ℝ, maxS = num m ∧ s ≤ m)) :
    ∃ r : ℝ, supplyScore sup maxS = num r ∧ 0 ≤ r ∧ r ≤ 20 := by
  unfold supplyScore
  by_cases hg : (!sup.isNaN && !maxS.isNaN && gtB maxS (num 0)) = true
  · obtain ⟨s, hs, hs0, hmax⟩ := hsup hg
    subst hs
    rw [if_pos hg]
    rcases hmax with hinf | ⟨m, hm, hsm⟩
    · subst hinf
      refine ⟨20, ?_, by norm_num, by norm_num⟩
      simp only [div, sub, mul]
      norm_num
    · subst hm
      have hmpos : (0:ℝ) < m := by
        have := hg
        simp only [Bool.and_eq_true, gtB, ltB] at this
        exact of_decide_eq_true this.2
      have hq0 : (0:ℝ) ≤ s / m := div_nonneg hs0 (le_of_lt hmpos)
      have hq1 : s / m ≤ 1 := by
        rw [div_le_one hmpos]; exact hsm
      refine ⟨20 * (1 - s / m), ?_, by linarith, by linarith⟩
      simp only [div, if_neg (ne_of_gt hmpos), sub, mul]
  · rw [if_neg hg]
    exact ⟨0, rfl, by norm_num, by norm_num⟩

/-- A snapshot whose circulating supply exceeds its maximum supply.  All
other numeric fields are zero, so every other sub-score is `0`. -/
def oversupplyCoin : CryptoData :=
  { id := "oversupply"
    priceUsd := num 0
    changePercent24Hr := num 0
    marketCapUsd := num 0
    volumeUsd24Hr := num 0
    supply := num 3
    maxSupply := num 1 }

/-- C1 counterexample: on the snapshot with `supply = "3"`,
`maxSupply = "1"` and all other numeric fields `"0"`, the supply sub-score
is `20 × (1 − 3) = −40` and `calculatePotentialScore` returns `−40`,
which is below `0` — so a combination of supply and maxSupply values does
drive the total below `0`. -/
theorem potentialScore_below_zero :
    calculatePotentialScore oversupplyCoin = num (-40) ∧ ((-40:ℝ) < 0) := by
  constructor
  · have hmc : marketCapScore (num 0) = num 0 := by
      simp [marketCapScore, geB, leB]
    have hvs : volumeScore (num 0) (num 0) = num 0 := by
      simp [volumeScore, gtB, ltB]
    have hss : supplyScore (num 3) (num 1) = num (-40) := by
      simp [supplyScore, isNaN, gtB, ltB, div, sub, mul]
      norm_num
    have hts : trendScore (num 0) = num 0 := by
      simp [trendScore, isNaN, maxJ, minJ, leB]
    simp only [calculatePotentialScore, oversupplyCoin, hmc, hvs, hss, hts, add,
      JSVal.round]
    norm_num
  · norm_num

/-- C1 amended: the potential score is an integer in `[0, 100]` provided
that (i) a positive volume comes with a finite nonnegative market cap,
and (ii) when the supply guard passes, the supply is a finite number with
`0 ≤ supply` and `supply ≤ maxSupply`.  Without these two provisos the
score escapes the band (see the counterexample). -/
theorem potentialScore_bounds (c : CryptoData)
    (hvol : gtB c.volumeUsd24Hr (num 0) = true →
      ∃ m : ℝ, c.marketCapUsd = num m ∧ 0 ≤ m)
    (hsup : (!c.supply.isNaN && !c.maxSupply.isNaN && gtB c.maxSupply (num 0)) = true →
      ∃ s : ℝ, c.supply = num s ∧ 0 ≤ s ∧
        (c.maxSupply = posInf ∨ ∃ m : ℝ, c.maxSupply = num m ∧ s ≤ m)) :
    ∃ k : ℤ, calculatePotentialScore c = num k ∧ 0 ≤ k ∧ k ≤ 100 := by
  obtain ⟨r1, h1, h1a, h1b⟩ := marketCapScore_range c.marketCapUsd
  obtain ⟨r2, h2, h2a, h2b⟩ := volumeScore_range c.volumeUsd24Hr c.marketCapUsd hvol
  obtain ⟨r3, h3, h3a, h3b⟩ := supplyScore_range c.supply c.maxSupply hsup
  obtain ⟨r4, h4, h4a, h4b⟩ := trendScore_range c.changePercent24Hr
  refine ⟨⌊r1 + r2 + r3 + r4 + 1/2⌋, ?_, ?_, ?_⟩
  · simp only [calculatePotentialScore, h1, h2, h3, h4, add, JSVal.round]
  · exact Int.le_floor.mpr (by push_cast; linarith)
  · have : ⌊r1 + r2 + r3 + r4 + 1/2⌋ < 101 := by
      rw [Int.floor_lt]
      push_cast
      linarith
    omega

/-- C1 witness: the amended bound instantiated at a concrete snapshot
(market cap, volume and change zero; supply `0` of maxSupply `1`). -/
theorem potentialScore_bounds_witness :
    ∃ k : ℤ,
      calculatePotentialScore
        { id := "w1", priceUsd := num 0, changePercent24Hr := num 0,
          marketCapUsd := num 0, volumeUsd24Hr := num 0,
          supply := num 0, maxSupply := num 1 } = num k ∧ 0 ≤ k ∧ k ≤ 100 :=
  potentialScore_bounds _
    (by intro h; exact ⟨0, rfl, le_refl 0⟩)
    (by
      intro h
      exact ⟨0, rfl, le_refl 0, Or.inr ⟨1, rfl, by norm_num⟩⟩)

/-- The snapshot of the specification's concrete scenario 1:
`{marketCap: "2000000000", volume: "1000000000", changePercent: "10",
supply: "500000", maxSupply: "1000000"}`. -/
def spec1Coin : CryptoData :=
  { id := "spec1"
    priceUsd := num 1
    changePercent24Hr := num 10
    marketCapUsd := num 2000000000
    volumeUsd24Hr := num 1000000000
    supply := num 500000
    maxSupply := num 1000000 }

theorem volumeScore_spec1 : volumeScore (num 1000000000) (num 2000000000) = num 25 := by
  have hr : (1000000000:ℝ) / 2000000000 * 100 = 50 := by norm_num
  simp [volumeScore, gtB, ltB, div, mul, minJ, isNaN, leB, hr]
  norm_num

theorem supplyScore_spec1 : supplyScore (num 500000) (num 1000000) = num 10 := by
  simp [supplyScore, isNaN, gtB, ltB, div, sub, mul]
  norm_num

theorem trendScore_ten : trendScore (num 10) = num 10 := by
  simp [trendScore, isNaN, maxJ, minJ, leB]
  norm_num

/-- Value of the score engine on the scenario-1 snapshot: the
capitalization sub-score is `30 × (1 − ln 2000 / ln 5000) ≈ 3.23`, so the
rounded total is `⌊3.23… + 25 + 10 + 10 + 0.5⌋ = 48`. -/
theorem spec1_score : calculatePotentialScore spec1Coin = num 48 := by
  obtain ⟨hlo, hhi⟩ := capScore_2e9_bounds
  simp only [calculatePotentialScore, spec1Coin, marketCapScore_2e9, volumeScore_spec1,
    supplyScore_spec1, trendScore_ten, add, JSVal.round]
  have : ⌊30 * (1 - Real.log 2000 / Real.log 5000) + 25 + 10 + 10 + 1 / 2⌋ = (48:ℤ) := by
    rw [Int.floor_eq_iff]
    constructor
    · push_cast; linarith
    · push_cast; linarith
  rw [this]
  norm_num

/-- C4 counterexample: on the scenario-1 snapshot the capitalization
sub-score is below `3.5` (not `≈ 9.9`) and the total potential score is
`48` (not `≈ 55`). -/
theorem spec1_score_not_55 :
    (∃ r : ℝ, marketCapScore (num 2000000000) = num r ∧ r < 7 / 2) ∧
      calculatePotentialScore spec1Coin = num 48 ∧ num 48 ≠ num 55 := by
  refine ⟨⟨30 * (1 - Real.log 2000 / Real.log 5000), marketCapScore_2e9,
    capScore_2e9_bounds.2⟩, spec1_score, ?_⟩
  intro h
  have := JSVal.num.inj h
  norm_num at this

/-- C4 amended: on the scenario-1 snapshot the sub-scores are
capitalization `30 × (1 − ln 2000 / ln 5000) ∈ [2.5, 3.5)` (≈ 3.23),
volume `25`, supply `10`, trend `10`, and the rounded total is `48`. -/
theorem spec1_decomposition :
    (∃ r : ℝ, marketCapScore spec1Coin.marketCapUsd = num r ∧ 5 / 2 ≤ r ∧ r < 7 / 2) ∧
      volumeScore spec1Coin.volumeUsd24Hr spec1Coin.marketCapUsd = num 25 ∧
      supplyScore spec1Coin.supply spec1Coin.maxSupply = num 10 ∧
      trendScore spec1Coin.changePercent24Hr = num 10 ∧
      calculatePotentialScore spec1Coin = num 48 := by
  refine ⟨⟨30 * (1 - Real.log 2000 / Real.log 5000), marketCapScore_2e9,
    capScore_2e9_bounds.1, capScore_2e9_bounds.2⟩,
    volumeScore_spec1, supplyScore_spec1, trendScore_ten, spec1_score⟩

/-- A snapshot whose `supply` string fails to parse (`parseFloat` gives
`NaN`) while `changePercent24Hr` is `"10"` and the remaining numeric
fields are `"0"` resp. `"1000000"`. -/
def badSupplyCoin : CryptoData :=
  { id := "badsupply"
    priceUsd := num 0
    changePercent24Hr := num 10
    marketCapUsd := num 0
    volumeUsd24Hr := num 0
    supply := nan
    maxSupply := num 1000000 }

/-- C5 counterexample: on a snapshot whose `supply` fails to parse, the
score engine still returns the rounded sum of the other sub-scores —
here `10` from the trend sub-score — and not `0` for the whole score. -/
theorem parse_failure_score_not_zero :
    calculatePotentialScore badSupplyCoin = num 10 ∧
      calculatePotentialScore badSupplyCoin ≠ num 0 := by
  have hmc : marketCapScore (num 0) = num 0 := by
    simp [marketCapScore, geB, leB]
  have hvs : volumeScore (num 0) (num 0) = num 0 := by
    simp [volumeScore, gtB, ltB]
  have hss : supplyScore nan (num 1000000) = num 0 := by
    simp [supplyScore, isNaN]
  have hscore : calculatePotentialScore badSupplyCoin = num 10 := by
    simp only [calculatePotentialScore, badSupplyCoin, hmc, hvs, hss, trendScore_ten,
      add, JSVal.round]
    norm_num
  refine ⟨hscore, ?_⟩
  rw [hscore]
  intro h
  have := JSVal.num.inj h
  norm_num at this

theorem JSVal.num_zero_add (v : JSVal) : add (num 0) v = v := by
  cases v <;> simp [add]

/-- C5 amended: a parse failure in any of the five fields the engine
reads zeroes exactly the sub-scores guarded on that field and leaves the
rest of the computation unchanged — the whole score is never forced to
`0`.  The engine returns the rounded sum of the remaining sub-scores in
every case except one: an unparseable market cap combined with a positive
volume makes the volume sub-score, and hence the returned score, `NaN`
(still not `0`).  The function is total, so no exception ever leaves it —
the whole score becomes `0` only through the unreachable `catch`. -/
theorem parse_failure_is_local (c : CryptoData) :
    (c.changePercent24Hr.isNaN = true →
      trendScore c.changePercent24Hr = num 0 ∧
      calculatePotentialScore c =
        JSVal.round
          (add
            (add (marketCapScore c.marketCapUsd)
              (volumeScore c.volumeUsd24Hr c.marketCapUsd))
            (supplyScore c.supply c.maxSupply))) ∧
    (c.supply.isNaN = true ∨ c.maxSupply.isNaN = true →
      supplyScore c.supply c.maxSupply = num 0 ∧
      calculatePotentialScore c =
        JSVal.round
          (add
            (add (marketCapScore c.marketCapUsd)
              (volumeScore c.volumeUsd24Hr c.marketCapUsd))
            (trendScore c.changePercent24Hr))) ∧
    (c.volumeUsd24Hr.isNaN = true →
      volumeScore c.volumeUsd24Hr c.marketCapUsd = num 0 ∧
      calculatePotentialScore c =
        JSVal.round
          (add
            (add (marketCapScore c.marketCapUsd)
              (supplyScore c.supply c.maxSupply))
            (trendScore c.changePercent24Hr))) ∧
    (c.marketCapUsd.isNaN = true →
      marketCapScore c.marketCapUsd = num 0 ∧
      (gtB c.volumeUsd24Hr (num 0) = false →
        calculatePotentialScore c =
          JSVal.round
            (add (supplyScore c.supply c.maxSupply)
              (trendScore c.changePercent24Hr))) ∧
      (gtB c.volumeUsd24Hr (num 0) = true →
        volumeScore c.volumeUsd24Hr c.marketCapUsd = nan ∧
        calculatePotentialScore c = nan)) := by
  refine ⟨?_, ?_, ?_, ?_⟩
  · intro h
    have ht : trendScore c.changePercent24Hr = num 0 := by
      simp [trendScore, h]
    refine ⟨ht, ?_⟩
    simp only [calculatePotentialScore, ht, JSVal.add_num_zero]
  · intro h
    have hs : supplyScore c.supply c.maxSupply = num 0 := by
      rcases h with h | h <;> simp [supplyScore, h]
    refine ⟨hs, ?_⟩
    simp only [calculatePotentialScore, hs, JSVal.add_num_zero]
  · intro h
    have hveq : c.volumeUsd24Hr = nan := by
      cases hv : c.volumeUsd24Hr <;> simp_all [isNaN]
    have hv : volumeScore c.volumeUsd24Hr c.marketCapUsd = num 0 := by
      simp [volumeScore, hveq, gtB, ltB]
    refine ⟨hv, ?_⟩
    simp only [calculatePotentialScore, hv, JSVal.add_num_zero]
  · intro h
    have hmceq : c.marketCapUsd = nan := by
      cases hmc : c.marketCapUsd <;> simp_all [isNaN]
    have hmc : marketCapScore c.marketCapUsd = num 0 := by
      simp [marketCapScore, hmceq, geB, leB]
    refine ⟨hmc, ?_, ?_⟩
    · intro hvneg
      have hv : volumeScore c.volumeUsd24Hr c.marketCapUsd = num 0 := by
        simp [volumeScore, hvneg]
      simp only [calculatePotentialScore, hmc, hv, JSVal.add_num_zero,
        JSVal.num_zero_add]
    · intro hvpos
      have hv : volumeScore c.volumeUsd24Hr c.marketCapUsd = nan := by
        cases hvol : c.volumeUsd24Hr <;>
          simp_all [volumeScore, gtB, ltB, hmceq, div, mul, minJ, isNaN]
      refine ⟨hv, ?_⟩
      simp only [calculatePotentialScore, hmc, hv]
      simp [add, JSVal.round, JSVal.num_zero_add]

/-- A snapshot whose `marketCapUsd` string fails to parse while its
volume is positive: the volume sub-score divides by `NaN`. -/
def badMarketCapCoin : CryptoData :=
  { id := "badmc"
    priceUsd := num 1
    changePercent24Hr := num 1
    marketCapUsd := nan
    volumeUsd24Hr := num 5
    supply := num 1
    maxSupply := num 1 }

/-- C5 witness: the amended statement instantiated on the concrete
snapshot with unparseable `supply` (score is the rounded sum of the
remaining sub-scores) and on the snapshot with unparseable `marketCapUsd`
and positive volume (score is `NaN`). -/
theorem parse_failure_is_local_witness :
    (supplyScore badSupplyCoin.supply badSupplyCoin.maxSupply = num 0 ∧
      calculatePotentialScore badSupplyCoin =
        JSVal.round
          (add
            (add (marketCapScore badSupplyCoin.marketCapUsd)
              (volumeScore badSupplyCoin.volumeUsd24Hr badSupplyCoin.marketCapUsd))
            (trendScore badSupplyCoin.changePercent24Hr))) ∧
    (volumeScore badMarketCapCoin.volumeUsd24Hr badMarketCapCoin.marketCapUsd = nan ∧
      calculatePotentialScore badMarketCapCoin = nan) := by
  constructor
  · exact (parse_failure_is_local badSupplyCoin).2.1
      (Or.inl (by simp [badSupplyCoin, isNaN]))
  · exact ((parse_failure_is_local badMarketCapCoin).2.2.2
      (by simp [badMarketCapCoin, isNaN])).2.2
      (by simp [badMarketCapCoin, gtB, ltB])

/-- The filter criterion exactly as the specification words it ("keep a
snapshot only if volume, marketCap, and changePercent all parse to finite
numbers, volume ≥ minVolume, and minMarketCap ≤ marketCap ≤
maxMarketCap").  This definition follows the spec's words, for comparison
with `isValidCoin`, which is embedded from the source. -/
noncomputable def specKeepsSnapshot (p : FilterParams) (c : CryptoData) : Prop :=
  c.volumeUsd24Hr.isFinite = true ∧
  c.marketCapUsd.isFinite = true ∧
  c.changePercent24Hr.isFinite = true ∧
  geB c.volumeUsd24Hr (num p.minVolume) = true ∧
  geB c.marketCapUsd (num p.minMarketCap) = true ∧
  leB c.marketCapUsd (num p.maxMarketCap) = true

/-- A snapshot whose `volumeUsd24Hr` and `changePercent24Hr` strings parse
to `+Infinity` (for example the string "1e999"), with an in-band market
cap. -/
def infVolumeCoin : CryptoData :=
  { id := "infvol"
    priceUsd := num 1
    changePercent24Hr := posInf
    marketCapUsd := num 2000000
    volumeUsd24Hr := posInf
    supply := num 1
    maxSupply := num 1 }

/-- C6 counterexample: the snapshot with infinite volume and change
passes the source's filter (its test is `!isNaN`, not finiteness), yet its
volume and change do not parse to finite numbers, so the spec's "if and
only if all three parse to finite numbers" fails at this input. -/
theorem filter_keeps_nonfinite :
    infVolumeCoin ∈ filterStep defaultFilterParams [infVolumeCoin] ∧
      ¬ specKeepsSnapshot defaultFilterParams infVolumeCoin := by
  constructor
  · have hv : isValidCoin defaultFilterParams infVolumeCoin = true := by
      simp [isValidCoin, infVolumeCoin, defaultFilterParams, isNaN, geB, leB]
      norm_num
    simp [filterStep, List.filter, hv]
  · intro h
    have := h.1
    simp [infVolumeCoin, isFinite] at this

/-- C6 amended: a snapshot survives the filter step if and only if its
volume, market cap and change all parse without `NaN` (infinities are
allowed where the thresholds do not exclude them) and the thresholds
hold; consequently no record with `volume < minVolume` ever reaches the
ranked output. -/
theorem filter_membership (p : FilterParams) (l : List CryptoData) :
    (∀ c : CryptoData, c ∈ filterStep p l ↔ c ∈ l ∧
      c.volumeUsd24Hr.isNaN = false ∧
      geB c.volumeUsd24Hr (num p.minVolume) = true ∧
      c.marketCapUsd.isNaN = false ∧
      geB c.marketCapUsd (num p.minMarketCap) = true ∧
      leB c.marketCapUsd (num p.maxMarketCap) = true ∧
      c.changePercent24Hr.isNaN = false) ∧
    (∀ r : RankedCoin, r ∈ filterDataList p l →
      ltB r.volumeUsd24Hr (num p.minVolume) = false) := by
  constructor
  · intro c
    rw [filterStep, List.mem_filter]
    simp [isValidCoin, and_assoc]
  · intro r hr
    have h1 : r ∈ (scoredList p l).mergeSort sortLE :=
      List.mem_of_mem_take hr
    have h2 : r ∈ scoredList p l := List.mem_mergeSort.1 h1
    obtain ⟨c, hc, hrc⟩ := List.mem_map.1 h2
    have hvalid : isValidCoin p c = true := (List.mem_filter.1 hc).2
    have hge : geB c.volumeUsd24Hr (num p.minVolume) = true := by
      simp only [isValidCoin, Bool.and_eq_true] at hvalid
      exact hvalid.1.1.1.1.2
    have hvol : r.volumeUsd24Hr = c.volumeUsd24Hr := by
      rw [← hrc]
    rw [hvol]
    exact JSVal.ltB_eq_false_of_geB hge

/-- The scored record the pipeline produces for the scenario-1 snapshot. -/
noncomputable def rankedSpec1 : RankedCoin :=
  { spec1Coin with potentialScore := calculatePotentialScore spec1Coin }

/-- Value of the whole `filterData` pipeline on the singleton scenario-1
list: the snapshot survives and is ranked. -/
theorem filterDataList_spec1 :
    filterDataList defaultFilterParams [spec1Coin] = [rankedSpec1] := by
  have hv : isValidCoin defaultFilterParams spec1Coin = true := by
    simp [isValidCoin, spec1Coin, defaultFilterParams, isNaN, geB, leB]
    norm_num
  simp [filterDataList, scoredList, filterStep, List.filter, hv, rankedSpec1]
  norm_num [defaultFilterParams]

/-- C6 witness: the amended membership law applied to the concrete
scenario-1 snapshot — its ranked record has `volume < minVolume` false. -/
theorem filter_membership_witness :
    ltB rankedSpec1.volumeUsd24Hr (num defaultFilterParams.minVolume) = false :=
  (filter_membership defaultFilterParams [spec1Coin]).2 rankedSpec1
    (by rw [filterDataList_spec1]; exact List.mem_singleton.2 rfl)

theorem sortLE_of_key_eq {a b : RankedCoin} (h : sortKey a = sortKey b) :
    sortLE a b = true := by
  rw [sortLE_eq, ← h]
  exact JSVal.leB_refl (sortKey_isNaN a)

/-- Stability of the sort step: for every key value, the records carrying
that key appear in the sorted list exactly in their pre-sort order. -/
theorem mergeSort_filter_key (l : List RankedCoin) (v : JSVal) :
    (l.mergeSort sortLE).filter (fun r => decide (sortKey r = v)) =
      l.filter (fun r => decide (sortKey r = v)) := by
  set q : RankedCoin → Bool := fun r => decide (sortKey r = v) with hq
  have hkey : ∀ a : RankedCoin, a ∈ l.filter q → sortKey a = v := by
    intro a ha
    have := (List.mem_filter.1 ha).2
    simpa [hq] using this
  have hpair : (l.filter q).Pairwise (fun a b => sortLE a b = true) := by
    apply List.pairwise_of_forall_mem_list
    intro a ha b hb
    exact sortLE_of_key_eq ((hkey a ha).trans (hkey b hb).symm)
  have hsub : l.filter q <+ l.mergeSort sortLE :=
    List.sublist_mergeSort (fun a b c => sortLE_trans a b c) sortLE_total hpair
      (List.filter_sublist l)
  have hself : (l.filter q).filter q = l.filter q :=
    List.filter_eq_self.2 (fun a ha => (List.mem_filter.1 ha).2)
  have hsubf : l.filter q <+ (l.mergeSort sortLE).filter q := by
    calc l.filter q = (l.filter q).filter q := hself.symm
      _ <+ (l.mergeSort sortLE).filter q := hsub.filter q
  have hperm : (l.mergeSort sortLE).filter q ~ l.filter q :=
    (List.mergeSort_perm l sortLE).filter q
  exact (hsubf.eq_of_length hperm.length_eq.symm).symm

/-- C7: the ranked output has at most `maxResults` entries, is ordered by
weakly descending sort key (`potentialScore || 0`, which equals
`potentialScore` whenever the score is not `NaN`), and is stable: for
every score value, the records carrying it appear as a prefix of their
original relative order in the scored input.  Holds for every input list
and every choice of `FilterParams`. -/
theorem ranked_list_sorted_bounded_stable (p : FilterParams) (l : List CryptoData) :
    (filterDataList p l).length ≤ p.maxResults ∧
    (filterDataList p l).Pairwise (fun a b => leB (sortKey b) (sortKey a) = true) ∧
    ∀ v : JSVal, (filterDataList p l).filter (fun r => decide (sortKey r = v)) <+:
      (scoredList p l).filter (fun r => decide (sortKey r = v)) := by
  refine ⟨?_, ?_, ?_⟩
  · rw [filterDataList]
    exact List.length_take_le p.maxResults _
  · have hs : ((scoredList p l).mergeSort sortLE).Pairwise (fun a b => sortLE a b = true) :=
      List.sorted_mergeSort (fun a b c => sortLE_trans a b c) sortLE_total (scoredList p l)
    have hp : (filterDataList p l).Pairwise (fun a b => sortLE a b = true) :=
      hs.sublist (List.take_sublist _ _)
    exact hp.imp (fun h => by rwa [sortLE_eq] at h)
  · intro v
    refine ⟨(((scoredList p l).mergeSort sortLE).drop p.maxResults).filter
      (fun r => decide (sortKey r = v)), ?_⟩
    rw [filterDataList, ← List.filter_append, List.take_append_drop, mergeSort_filter_key]

/-- The snapshot of the specification's concrete scenario 2: volume
`"500"`, below every positive `minVolume`. -/
def lowVolumeCoin : CryptoData :=
  { id := "lowvol"
    priceUsd := num 1
    changePercent24Hr := num 1
    marketCapUsd := num 2000000
    volumeUsd24Hr := num 500
    supply := num 1
    maxSupply := num 1 }

/-- C3: when the filter step yields zero survivors, `filterData` first
installs the "no matches" message, but the success path of `fetchData`
then executes `setData(filteredData); setError(null)`, so the committed
state carries an empty ranked list and `error = null` — the "no matches"
condition is set and immediately clobbered, hence never visible. -/
theorem noMatch_message_clobbered :
    filterDataList defaultFilterParams [lowVolumeCoin] = [] ∧
    filterDataErrorEffect defaultFilterParams (some [lowVolumeCoin]) none =
      some noMatchMsg ∧
    snapStep defaultFilterParams
        { data := [rankedSpec1], error := none, loading := true, inflight := 1 }
        (SnapEvent.complete (SnapOutcome.success (some [lowVolumeCoin]))) =
      { data := [], error := none, loading := false, inflight := 0 } := by
  have h0 : isValidCoin defaultFilterParams lowVolumeCoin = false := by
    simp [isValidCoin, lowVolumeCoin, defaultFilterParams, isNaN, geB, leB]
    norm_num
  have hlist : filterDataList defaultFilterParams [lowVolumeCoin] = [] := by
    simp [filterDataList, scoredList, filterStep, List.filter, h0]
  refine ⟨hlist, ?_, ?_⟩
  · simp [filterDataErrorEffect, filterDataE, hlist, noMatchMsg]
  · simp [snapStep, filterDataResultFn, filterDataE, hlist]

/-- C10: any exception escaping the pipeline steps inside `filterData`'s
outer `try` makes `filterData` return the empty list (never propagating
the exception), and the success-path commit of `fetchData` then replaces
the previous ranked list wholesale with that empty list and clears the
error. -/
theorem filter_exception_empties_list (p : FilterParams) (resp : SnapResponse)
    (e : String) (h : filterDataE p resp = Except.error e) :
    filterDataResultFn p resp = [] ∧
    ∀ s : SnapState, s.inflight ≠ 0 →
      (snapStep p s (SnapEvent.complete (SnapOutcome.success resp))).data = [] ∧
      (snapStep p s (SnapEvent.complete (SnapOutcome.success resp))).error = none := by
  have hres : filterDataResultFn p resp = [] := by
    simp [filterDataResultFn, h]
  refine ⟨hres, ?_⟩
  intro s hs
  constructor
  · simp [snapStep, hs, hres]
  · simp [snapStep, hs]

/-- C10 witness: the exception law applied to a malformed (non-array)
payload arriving over a state holding a non-empty previous ranked list. -/
theorem filter_exception_empties_list_witness :
    filterDataResultFn defaultFilterParams none = [] ∧
    (snapStep defaultFilterParams
        { data := [rankedSpec1], error := some fetchFailMsg, loading := true, inflight := 1 }
        (SnapEvent.complete (SnapOutcome.success none))).data = [] ∧
    (snapStep defaultFilterParams
        { data := [rankedSpec1], error := some fetchFailMsg, loading := true, inflight := 1 }
        (SnapEvent.complete (SnapOutcome.success none))).error = none := by
  have h := filter_exception_empties_list defaultFilterParams none ("TypeError") rfl
  exact ⟨h.1, (h.2 _ (by norm_num)).1, (h.2 _ (by norm_num)).2⟩

/-- C9 counterexample: a timer tick arriving while a snapshot fetch is in
flight starts a second concurrent in-flight fetch — `fetchData` has no
in-flight guard and only the manual button is disabled. -/
theorem overlapping_snapshot_fetches :
    (snapRun defaultFilterParams initSnapState [SnapEvent.timerTick]).loading = true ∧
    (snapRun defaultFilterParams initSnapState [SnapEvent.timerTick]).inflight = 1 ∧
    (snapRun defaultFilterParams initSnapState
      [SnapEvent.timerTick, SnapEvent.timerTick]).inflight = 2 :=
  ⟨rfl, rfl, rfl⟩

/-- C9 amended: the manual refresh trigger is suppressed while `loading`
(the button is disabled), but the timer is not, so a second concurrent
fetch can start; still, in every interleaving the retained `data` is the
filtered result of the most recently completed successful fetch: a
settling success commits exactly its own filtered payload, and no other
event (timer tick, click, or failed completion) modifies `data`. -/
theorem snapshot_last_completed_wins (p : FilterParams) (s : SnapState) :
    (s.loading = true → snapStep p s SnapEvent.refreshClick = s) ∧
    (s.inflight ≠ 0 → ∀ resp : SnapResponse,
      (snapStep p s (SnapEvent.complete (SnapOutcome.success resp))).data =
        filterDataResultFn p resp) ∧
    (snapStep p s SnapEvent.timerTick).data = s.data ∧
    (snapStep p s SnapEvent.refreshClick).data = s.data ∧
    (snapStep p s (SnapEvent.complete SnapOutcome.failure)).data = s.data := by
  refine ⟨?_, ?_, ?_, ?_, ?_⟩
  · intro h
    simp [snapStep, h]
  · intro hs resp
    simp [snapStep, hs]
  · rfl
  · by_cases hl : s.loading <;> simp [snapStep, hl]
  · by_cases h0 : s.inflight = 0 <;> simp [snapStep, h0]

/-- C9 witness: the amended law at a concrete loading state with one
fetch in flight. -/
theorem snapshot_last_completed_wins_witness :
    snapStep defaultFilterParams
        { data := [rankedSpec1], error := none, loading := true, inflight := 1 }
        SnapEvent.refreshClick =
      { data := [rankedSpec1], error := none, loading := true, inflight := 1 } ∧
    (snapStep defaultFilterParams
        { data := [rankedSpec1], error := none, loading := true, inflight := 1 }
        (SnapEvent.complete (SnapOutcome.success (some [lowVolumeCoin])))).data =
      filterDataResultFn defaultFilterParams (some [lowVolumeCoin]) := by
  have h := snapshot_last_completed_wins defaultFilterParams
    { data := [rankedSpec1], error := none, loading := true, inflight := 1 }
  exact ⟨h.1 rfl, h.2.1 (by norm_num) (some [lowVolumeCoin])⟩

/-- First history payload of the race scenario (the 7D fetch's points). -/
def pointA : HistoricalPoint := { priceUsd := num 1, time := 100, date := "a" }

/-- Second history payload of the race scenario (the 24H fetch's points). -/
def pointB : HistoricalPoint := { priceUsd := num 2, time := 200, date := "b" }

/-- Points delivered for the superseded (bitcoin, 7D) request. -/
def histDataA : List HistoricalPoint := [pointA]

/-- Points delivered for the current (bitcoin, 24H) request. -/
def histDataB : List HistoricalPoint := [pointB]

/-- The specification's race scenario: open the chart for an asset (7D
fetch starts), switch to 24H while the 7D fetch is in flight (24H fetch
starts), the 24H fetch resolves first, then the stale 7D fetch resolves. -/
def raceTrace : List HistEvent :=
  [HistEvent.clickCrypto ("bitcoin") histDataA,
   HistEvent.changeRange TimeRange.h24 histDataB,
   HistEvent.completeAt 1 true,
   HistEvent.completeAt 0 true]

/-- C2 counterexample: after the race trace the selection is
(bitcoin, 24H) and the 24H result had been committed, yet the final
`historicalData` is the stale 7D payload — the superseded fetch
overwrites the later selection's series on arrival. -/
theorem stale_history_fetch_overwrites :
    (histRun initHistState (raceTrace.take 3)).historicalData = histDataB ∧
    (histRun initHistState raceTrace).selectedId = some ("bitcoin") ∧
    (histRun initHistState raceTrace).selectedRange = TimeRange.h24 ∧
    (histRun initHistState raceTrace).historicalData = histDataA ∧
    histDataA ≠ histDataB := by
  refine ⟨rfl, rfl, rfl, rfl, ?_⟩
  intro h
  simp [histDataA, histDataB, pointA, pointB] at h

/-- C2 amended: the series committed to `historicalData` is always the
payload of whichever request settles, independently of whether that
request's key still matches the current selection — `fetchHistoricalData`
performs no staleness comparison.  No other history-track event modifies
`historicalData`, so the last-resolving fetch always wins. -/
theorem history_commit_unconditional (s : HistState) :
    (∀ i (h : i < s.inflight.length),
      (histStep s (HistEvent.completeAt i true)).historicalData =
        (s.inflight.get ⟨i, h⟩).points) ∧
    (∀ id pts, (histStep s (HistEvent.clickCrypto id pts)).historicalData =
      s.historicalData) ∧
    (∀ r pts, (histStep s (HistEvent.changeRange r pts)).historicalData =
      s.historicalData) ∧
    (∀ i, (histStep s (HistEvent.completeAt i false)).historicalData =
      s.historicalData) := by
  refine ⟨?_, ?_, ?_, ?_⟩
  · intro i h
    simp [histStep, h]
  · intro id pts
    rfl
  · intro r pts
    rcases hsel : s.selectedId with _ | id <;> simp [histStep, hsel]
  · intro i
    by_cases h : i < s.inflight.length <;> simp [histStep, h]

/-- A state whose single in-flight request (bitcoin, 7D) no longer
matches the current selection (ethereum, 24H). -/
def staleReqState : HistState :=
  { selectedId := some ("ethereum")
    selectedRange := TimeRange.h24
    historicalData := []
    loadingHistory := true
    inflight := [{ key := { assetId := "bitcoin", range := TimeRange.d7 }, points := histDataA }] }

/-- C2 witness: resolving the mismatching request still commits its
payload. -/
theorem history_commit_unconditional_witness :
    (histStep staleReqState (HistEvent.completeAt 0 true)).historicalData = histDataA := by
  have h := (history_commit_unconditional staleReqState).1 0 (by simp [staleReqState])
  simpa [staleReqState] using h

/-- C8 counterexample: an empty history payload produces `null`
(`if (!historicalData.length) return null`), the very value the chart
state holds before any fetch (the initial `historicalData` is `[]`), so
the empty series is not distinct from the not-yet-fetched state. -/
theorem empty_series_equals_unfetched :
    chartDataFn TimeRange.d7 [] = none ∧
    chartDataFn initHistState.selectedRange initHistState.historicalData = none :=
  ⟨rfl, rfl⟩

/-- C8 amended: for a non-empty history payload the transform emits
exactly one (label, value) pair per input point, where the pair at index
`i` derives from the input point at index `i` (label from its timestamp,
value its parsed price), and hour-of-day appears in the label exactly for
the 24H range; the empty payload instead yields `null`, the same value as
the not-yet-fetched state. -/
theorem chart_series_one_to_one (r : TimeRange) (hd : List HistoricalPoint)
    (h : hd ≠ []) :
    ∃ c : ChartPayload, chartDataFn r hd = some c ∧
      c.labels.length = hd.length ∧
      c.values.length = hd.length ∧
      ∀ i (hi : i < hd.length) (hl : i < c.labels.length) (hv : i < c.values.length),
        (c.labels.get ⟨i, hl⟩).time = (hd.get ⟨i, hi⟩).time ∧
        ((c.labels.get ⟨i, hl⟩).withHour = true ↔ r = TimeRange.h24) ∧
        c.values.get ⟨i, hv⟩ = (hd.get ⟨i, hi⟩).priceUsd := by
  have hlen : hd.length ≠ 0 := fun hh => h (List.length_eq_zero.1 hh)
  refine ⟨⟨hd.map (fun item =>
      { time := item.time, withHour := decide (r = TimeRange.h24) }),
    hd.map (fun item => item.priceUsd)⟩, ?_, by simp, by simp, ?_⟩
  · simp [chartDataFn, hlen]
  · intro i hi hl hv
    refine ⟨?_, ?_, ?_⟩
    · simp [List.get_eq_getElem, List.getElem_map]
    · simp [List.get_eq_getElem, List.getElem_map]
    · simp [List.get_eq_getElem, List.getElem_map]

/-- C8 witness: the 1:1 transform law at a one-point payload for the 24H
range. -/
theorem chart_series_one_to_one_witness :
    ∃ c : ChartPayload, chartDataFn TimeRange.h24 [pointA] = some c ∧
      c.labels.length = [pointA].length ∧
      c.values.length = [pointA].length ∧
      ∀ i (hi : i < [pointA].length) (hl : i < c.labels.length)
          (hv : i < c.values.length),
        (c.labels.get ⟨i, hl⟩).time = ([pointA].get ⟨i, hi⟩).time ∧
        ((c.labels.get ⟨i, hl⟩).withHour = true ↔ TimeRange.h24 = TimeRange.h24) ∧
        c.values.get ⟨i, hv⟩ = ([pointA].get ⟨i, hi⟩).priceUsd :=
  chart_series_one_to_one TimeRange.h24 [pointA] (by simp)
